import Mathlib

/-!
Shallow embedding of the gimli-based symbolication core of `backtrace-rs`
(`src/symbolize/gimli.rs`): the library-inventory data model, AVMA→SVMA
address translation, the bounded most-recently-used mapping cache, the
resolution orchestrator, and the Mach-O `native_library` enumeration logic.

External collaborators (file opening, memory mapping, the object-format
adapter, and the DWARF interpreter of `addr2line`) are modelled as an
explicit environment `Env` of pure functions; the parsed per-library
`Mapping` is an abstract type parameter `M`.  Rust panics (index out of
bounds) are made explicit by returning `Except Unit`, with `.error ()`
standing for a panic.  `usize` overflow on the Mach-O path uses wrapping
(release-profile) arithmetic, written explicitly with `% 2 ^ 64`.
-/

namespace BT

/-- One contiguous region of a library as stated in its own metadata
(`struct LibrarySegment` in gimli.rs). -/
structure LibrarySegment where
  stated_virtual_memory_address : Nat
  len : Nat
deriving DecidableEq

/-- One loaded binary image (`struct Library` in gimli.rs); `name` is the
file path used to open and map the binary. -/
structure Library where
  name : String
  segments : List LibrarySegment
  bias : Nat
deriving DecidableEq

/-- Fixed capacity of the mapping cache (`MAPPINGS_CACHE_SIZE` in gimli.rs). -/
def MAPPINGS_CACHE_SIZE : Nat := 4

/-- The cache (`struct Cache` in gimli.rs): the write-once library inventory
plus the LRU list of `(library index, Mapping)` pairs, most recently used
first.  `M` abstracts the parsed `Mapping`. -/
structure Cache (M : Type) where
  libraries : List Library
  mappings : List (Nat × M)
deriving DecidableEq

variable {M : Type}

/-- The segment test from `Cache::avma_to_svma` (gimli.rs lines 411-417):
`lib.segments.iter().any(|s| start <= address && address < end)` with
`start = stated_virtual_memory_address + bias` and `end = start + len`. -/
def libHasAddr (addr : Nat) (lib : Library) : Bool :=
  lib.segments.any fun s =>
    let start := s.stated_virtual_memory_address + lib.bias
    decide (start ≤ addr) && decide (addr < start + s.len)

/-- `Cache::avma_to_svma` (gimli.rs lines 403-427): the iterator chain
`libraries.iter().enumerate().filter_map(..).next()` — the first library
(in inventory order) with a segment containing `addr`, paired with
`addr - bias`. -/
def Cache.avma_to_svma (c : Cache M) (addr : Nat) : Option (Nat × Nat) :=
  c.libraries.enum.findSome? fun p =>
    if libHasAddr addr p.2 then some (p.1, addr - p.2.bias) else none

/-- Specification-side translation, following the spec's words: scan
libraries in inventory order; return the first (lowest-index) library having
some segment with `bias + stated_address ≤ address < bias + stated_address +
length`, paired with `file_coordinate = address - bias`; otherwise `none`.
The `Nat` argument is the index of the first library of the remaining list. -/
def translateSpec (addr : Nat) : Nat → List Library → Option (Nat × Nat)
  | _, [] => none
  | i, lib :: rest =>
    if lib.segments.any fun s =>
        decide (lib.bias + s.stated_virtual_memory_address ≤ addr) &&
        decide (addr < lib.bias + s.stated_virtual_memory_address + s.len) then
      some (i, addr - lib.bias)
    else
      translateSpec addr (i + 1) rest

/-- A source location as delivered by the debug-info interpreter
(`addr2line::Location`): optional file and line. -/
structure Location where
  file : Option String
  line : Option Nat
deriving DecidableEq

/-- One frame produced by the debug-info interpreter
(`addr2line` frame: `frame.location` and `frame.function.name`). -/
structure Frame where
  location : Option Location
  name : Option String
deriving DecidableEq

/-- The transient output type (`enum Symbol` in gimli.rs lines 507-518):
either a rich frame or a bare symbol-table hit, which carries no location. -/
inductive Symbol where
  | frame (addr : Nat) (location : Option Location) (name : Option String)
  | symtab (addr : Nat) (name : String)
deriving DecidableEq

/-- The external collaborators of the core, as pure functions: `build`
models `Mapping::new` on a library's path (file open, metadata, mmap and
debug-info construction, any of which can fail, giving `none`);
`findFrames` models `cx.dwarf.find_frames`, whose overall `Result` is
`.error` and which on success yields the sequence of successive
`frames.next()` results (`.ok (some f)`, `.ok none`, or `.error`);
`searchSymtab` models `cx.object.search_symtab`. -/
structure Env (M : Type) where
  build : String → Option M
  findFrames : M → Nat → Except Unit (List (Except Unit (Option Frame)))
  searchSymtab : M → Nat → Option String

/-- Rust's `Iterator::position`, used by `mapping_for_lib` to locate the
cache entry of a library index. -/
def position (p : α → Bool) : List α → Option Nat
  | [] => none
  | a :: as => if p a then some 0 else (position p as).map (· + 1)

/-- `Cache::mapping_for_lib` (gimli.rs lines 429-459).  A hit at index
`idx ≠ 0` is promoted by `remove(idx)` + `insert(0, entry)`; a miss builds a
new `Mapping` from the library's file (on failure the whole call returns
`none` with the cache untouched), pops the tail entry when the cache is at
`MAPPINGS_CACHE_SIZE`, and inserts the new entry at the front.  The returned
value is the context of the entry at index 0.  `.error ()` models the panic
of the `self.libraries[lib]` indexing when `lib` is out of range (unreachable
from `resolve`); the inner `get?`-fallback arm is likewise unreachable since
`position` only returns valid indices. -/
def Cache.mapping_for_lib (env : Env M) (c : Cache M) (lib : Nat) :
    Except Unit (Option M × Cache M) :=
  match position (fun p => p.1 == lib) c.mappings with
  | some idx =>
    let ms :=
      if idx ≠ 0 then
        match c.mappings[idx]? with
        | some entry => entry :: c.mappings.eraseIdx idx
        | none => c.mappings
      else c.mappings
    .ok (ms.head?.map Prod.snd, Cache.mk c.libraries ms)
  | none =>
    match c.libraries[lib]? with
    | none => .error ()
    | some l =>
      match env.build l.name with
      | none => .ok (none, c)
      | some mapping =>
        let ms :=
          if c.mappings.length == MAPPINGS_CACHE_SIZE then c.mappings.dropLast
          else c.mappings
        let ms := (lib, mapping) :: ms
        .ok (ms.head?.map Prod.snd, Cache.mk c.libraries ms)

/-- Whether a `mapping_for_lib` call on `c` takes the miss branch — i.e.
whether it would invoke `Mapping::new` (the construction-count side channel
of the spec's promotion property). -/
def Cache.builds_mapping (c : Cache M) (lib : Nat) : Bool :=
  (position (fun p => p.1 == lib) c.mappings).isNone

/-- `clear_symbol_cache` (gimli.rs lines 374-376): `cache.mappings.clear()`,
leaving the library inventory untouched. -/
def clear_symbol_cache (c : Cache M) : Cache M :=
  Cache.mk c.libraries []

/-- State effect of one `mapping_for_lib` call, discarding the returned
context (used to chain calls in cache scenarios). -/
def touch (env : Env M) (c : Cache M) (lib : Nat) : Cache M :=
  match Cache.mapping_for_lib env c lib with
  | .ok (_, next) => next
  | .error _ => c

/-- Chain of `touch` calls, left to right. -/
def touchList (env : Env M) (c : Cache M) : List Nat → Cache M
  | [] => c
  | l :: ls => touchList env (touch env c l) ls

/-- The `while let Ok(Some(frame)) = frames.next()` loop of `resolve`
(gimli.rs lines 486-493): the longest prefix of `.ok (some _)` results; the
loop stops at the first `Ok(None)` or `Err`, keeping what was already
emitted. -/
def framesDelivered : List (Except Unit (Option Frame)) → List Frame
  | .ok (some f) :: rest => f :: framesDelivered rest
  | _ => []

/-- Frames delivered for one context and file coordinate: none at all when
`find_frames` itself returns `Err` (gimli.rs line 485). -/
def framesOf (env : Env M) (m : M) (svma : Nat) : List Frame :=
  match env.findFrames m svma with
  | .error _ => []
  | .ok steps => framesDelivered steps

/-- The callback invocations of `resolve` once a context is in hand
(gimli.rs lines 484-503): one `Symbol.frame` per delivered frame, with
`any_frames` tracking whether any was produced; if none, the symbol-table
fallback produces at most one `Symbol.symtab`.  Note the source shadows
`addr` with the translated SVMA before this point, so the reported address
is the file coordinate. -/
def symbolsFor (env : Env M) (m : M) (svma : Nat) : List Symbol :=
  let out := (framesOf env m svma).map fun f => Symbol.frame svma f.location f.name
  if out.isEmpty then
    match env.searchSymtab m svma with
    | some n => [Symbol.symtab svma n]
    | none => []
  else out

/-- `resolve` (gimli.rs lines 462-505): translate the address, obtain a
cached or fresh context, emit DWARF frames, and fall back to the symbol
table when no frame was produced.  The returned list is the sequence of
callback invocations; `.error ()` would model a panic (proved unreachable). -/
def resolve (env : Env M) (c : Cache M) (addr : Nat) :
    Except Unit (List Symbol × Cache M) :=
  match c.avma_to_svma addr with
  | none => .ok ([], c)
  | some (lib, svma) =>
    match Cache.mapping_for_lib env c lib with
    | .error e => .error e
    | .ok (none, next) => .ok ([], next)
    | .ok (some m, next) => .ok (symbolsFor env m svma, next)

/-- A cache state is consistent with the environment when every cached
entry is one that `Mapping::new` would (re)build for its library index:
the index is in range and `build` on that library's path yields exactly the
cached mapping.  Every cache state reachable from an empty mapping list has
this property. -/
def Consistent (env : Env M) (c : Cache M) : Prop :=
  ∀ p ∈ c.mappings, ∃ l, c.libraries[p.1]? = some l ∧ env.build l.name = some p.2

/-- The callback sequence `resolve` produces as a function of the library
inventory alone (mapping state elided): what a resolution from an empty
mapping cache delivers. -/
def resolveOut (env : Env M) (libs : List Library) (addr : Nat) : List Symbol :=
  match (Cache.mk libs ([] : List (Nat × M))).avma_to_svma addr with
  | none => []
  | some (lib, svma) =>
    match libs[lib]?.bind (fun l => env.build l.name) with
    | none => []
    | some m => symbolsFor env m svma

/-- One segment load command of a Mach-O image, as exposed by the `object`
crate in `native_library` (gimli.rs lines 194-218): segment name, on-disk
offset and size, and stated virtual memory address and size. -/
structure MachSegment where
  segname : String
  fileoff : Nat
  filesize : Nat
  vmaddr : Nat
  vmsize : Nat
deriving DecidableEq

/-- One loaded Mach-O image as observed through the dyld queries and the
load-command iterator of `native_library` (gimli.rs lines 142-269):
`imageName` is `none` when `_dyld_get_image_name` returns null; `headerOk`
is `false` when `_dyld_get_image_header` is null, its magic is unknown, or
`load_commands` fails; `cmds` is the sequence of `load_commands.next()`
results, where `.error` covers a `next()`/`segment_32`/`segment_64`/
`try_into` failure and `.ok none` is a non-segment command; `slide` is
`_dyld_get_image_vmaddr_slide`. -/
structure MachImage where
  imageName : Option String
  headerOk : Bool
  cmds : List (Except Unit (Option MachSegment))
  slide : Nat

/-- Size of the `usize` value space; Mach-O bias arithmetic is wrapping
(release-profile) arithmetic modulo this. -/
def USIZE : Nat := 2 ^ 64

/-- Wrapping `usize` addition. -/
def wadd (a b : Nat) : Nat := (a + b) % USIZE

/-- Wrapping `usize` subtraction. -/
def wsub (a b : Nat) : Nat := (a % USIZE + (USIZE - b % USIZE)) % USIZE

/-- The load-command loop of `native_library` (gimli.rs lines 191-219):
accumulates the pushed `LibrarySegment`s, `first_text` (assigned
`segments.len()` on every `__TEXT` segment encountered), and
`text_fileoff_zero` (set when a `__TEXT` segment has file offset 0 and
nonzero file size).  Returns `none` when a command fails to parse (the
`.ok()?` early return that skips the whole image). -/
def collectSegs : List (Except Unit (Option MachSegment)) →
    List LibrarySegment → Nat → Bool →
    Option (List LibrarySegment × Nat × Bool)
  | [], segs, ft, tfz => some (segs, ft, tfz)
  | .error _ :: _, _, _, _ => none
  | .ok none :: rest, segs, ft, tfz => collectSegs rest segs ft tfz
  | .ok (some s) :: rest, segs, ft, tfz =>
    let ft := if s.segname == "__TEXT" then segs.length else ft
    let tfz :=
      if s.segname == "__TEXT" && s.fileoff == 0 && decide (s.filesize > 0) then true
      else tfz
    collectSegs rest (segs ++ [LibrarySegment.mk s.vmaddr s.vmsize]) ft tfz

/-- `native_library` (gimli.rs lines 142-269) for one Mach-O image: a
missing name, bad header, or command parse failure skips the image
(`.ok none`); otherwise the slide correction applies when no `__TEXT`
segment has file offset 0 with nonzero size, subtracting
`segments[first_text].stated_virtual_memory_address` from every stated
address and adding it to the slide.  `.error ()` models the panic of the
`segments[first_text]` indexing when that index is out of bounds. -/
def nativeLibrary (img : MachImage) : Except Unit (Option Library) :=
  match img.imageName with
  | none => .ok none
  | some nm =>
    if img.headerOk then
      match collectSegs img.cmds [] 0 false with
      | none => .ok none
      | some (segs, ft, tfz) =>
        if !tfz then
          match segs[ft]? with
          | none => .error ()
          | some fseg =>
            let adjust := fseg.stated_virtual_memory_address
            let segs := segs.map fun s =>
              LibrarySegment.mk (wsub s.stated_virtual_memory_address adjust) s.len
            .ok (some (Library.mk nm segs (wadd img.slide adjust)))
        else .ok (some (Library.mk nm segs img.slide))
    else .ok none

/-- Synthetic library used by the concrete scenarios: one segment
`{stated_address 0x1000, length 0x2000}`, bias `0x5000`. -/
def demoLib : Library :=
  Library.mk "demo" [LibrarySegment.mk 0x1000 0x2000] 0x5000

/-- Innermost inlined frame of the demo environment. -/
def demoFrame1 : Frame :=
  Frame.mk (some (Location.mk (some "a.rs") (some 10))) (some "inner")

/-- Outer frame of the demo environment. -/
def demoFrame2 : Frame :=
  Frame.mk (some (Location.mk (some "a.rs") (some 20))) (some "outer")

/-- Demo environment: every build succeeds with mapping `7`, the debug-info
interpreter yields two inlined frames then a clean end, and the symbol
table knows a name. -/
def demoEnv : Env Nat :=
  Env.mk (fun _ => some 7)
    (fun _ _ => .ok [.ok (some demoFrame1), .ok (some demoFrame2), .ok none])
    (fun _ _ => some "symtab_name")

/-- Demo cache: the synthetic library inventory with an empty mapping list. -/
def demoCache : Cache Nat := Cache.mk [demoLib] []

/-- Demo cache after the mapping for library 0 has been built. -/
def demoCacheFilled : Cache Nat := Cache.mk [demoLib] [(0, 7)]

/-- Callback sequence the demo environment produces at address 0x6500
(file coordinate 0x1500): both inlined frames in interpreter order. -/
def demoSyms : List Symbol :=
  [Symbol.frame 0x1500 (some (Location.mk (some "a.rs") (some 10))) (some "inner"),
   Symbol.frame 0x1500 (some (Location.mk (some "a.rs") (some 20))) (some "outer")]

/-- A featureless library for cache-only scenarios. -/
def blankLib : Library := Library.mk "lib" [] 0

/-- Inventory of `MAPPINGS_CACHE_SIZE + 1` libraries for the eviction
scenario. -/
def fiveLibs : List Library :=
  [blankLib, blankLib, blankLib, blankLib, blankLib]

/-- Environment whose builds always succeed (mapping `0`) and whose debug
data is empty. -/
def countEnv : Env Nat :=
  Env.mk (fun _ => some 0) (fun _ _ => .ok []) (fun _ _ => none)

/-- Environment whose builds always fail. -/
def failEnv : Env Nat :=
  Env.mk (fun _ => none) (fun _ _ => .ok []) (fun _ _ => none)

/-- Mach-O image with two `__TEXT` segments (stated addresses 0x2000 then
0x1000), neither at file offset 0 with nonzero size. -/
def imgTwoText : MachImage :=
  MachImage.mk (some "libfoo") true
    [.ok (some (MachSegment.mk "__TEXT" 8 16 0x2000 0x100)),
     .ok (some (MachSegment.mk "__TEXT" 8 16 0x1000 0x100))]
    0x10000

/-- Mach-O image whose header and load commands parse fine but which
contains no segment command at all. -/
def imgNoSegs : MachImage :=
  MachImage.mk (some "libbar") true [.ok none] 0x4000

/-- Mach-O image whose name query returns null. -/
def imgNoName : MachImage :=
  MachImage.mk none true [] 0

lemma libHasAddr_eq_spec (addr : Nat) (lib : Library) :
    libHasAddr addr lib =
      (lib.segments.any fun s =>
        decide (lib.bias + s.stated_virtual_memory_address ≤ addr) &&
        decide (addr < lib.bias + s.stated_virtual_memory_address + s.len)) := by
  unfold libHasAddr
  congr 1
  funext s
  rw [Nat.add_comm s.stated_virtual_memory_address lib.bias]

lemma avma_enumFrom (addr : Nat) :
    ∀ (libs : List Library) (n : Nat),
      ((List.enumFrom n libs).findSome? fun p =>
        if libHasAddr addr p.2 then some (p.1, addr - p.2.bias) else none) =
      translateSpec addr n libs := by
  intro libs
  induction libs with
  | nil => intro n; rfl
  | cons lib rest ih =>
    intro n
    show ((List.enumFrom n (lib :: rest)).findSome? _) = _
    rw [show List.enumFrom n (lib :: rest) =
        (n, lib) :: List.enumFrom (n + 1) rest from rfl]
    rw [List.findSome?_cons]
    by_cases h : libHasAddr addr lib
    · rw [libHasAddr_eq_spec] at h
      simp only [translateSpec, h, if_true]
      rw [← libHasAddr_eq_spec] at h
      simp [h]
    · rw [libHasAddr_eq_spec] at h
      simp only [translateSpec, h, if_false]
      rw [← libHasAddr_eq_spec] at h
      simp [h, ih]

lemma avma_eq_translateSpec (c : Cache M) (addr : Nat) :
    c.avma_to_svma addr = translateSpec addr 0 c.libraries :=
  avma_enumFrom addr c.libraries 0

lemma position_spec {α : Type} {p : α → Bool} :
    ∀ {l : List α} {i : Nat}, position p l = some i →
      ∃ a, l[i]? = some a ∧ p a = true := by
  intro l
  induction l with
  | nil => intro i h; simp [position] at h
  | cons a as ih =>
    intro i h
    by_cases hp : p a
    · simp [position, hp] at h
      subst h
      exact ⟨a, by simp, hp⟩
    · simp [position, hp] at h
      obtain ⟨j, hj, hji⟩ := h
      obtain ⟨b, hb, hpb⟩ := ih hj
      subst hji
      exact ⟨b, by simpa using hb, hpb⟩

lemma mfl_hit_zero (env : Env M) (c : Cache M) (lib : Nat)
    (hpos : position (fun p => p.1 == lib) c.mappings = some 0) :
    Cache.mapping_for_lib env c lib =
      .ok (c.mappings.head?.map Prod.snd, Cache.mk c.libraries c.mappings) := by
  unfold Cache.mapping_for_lib
  rw [hpos]
  rfl

lemma mfl_hit_pos (env : Env M) (c : Cache M) (lib idx : Nat) (e : Nat × M)
    (hpos : position (fun p => p.1 == lib) c.mappings = some idx)
    (hidx : idx ≠ 0) (he : c.mappings[idx]? = some e) :
    Cache.mapping_for_lib env c lib =
      .ok (some e.2, Cache.mk c.libraries (e :: c.mappings.eraseIdx idx)) := by
  unfold Cache.mapping_for_lib
  rw [hpos]
  show Except.ok
      ((if idx ≠ 0 then
          match c.mappings[idx]? with
          | some entry => entry :: c.mappings.eraseIdx idx
          | none => c.mappings
        else c.mappings).head?.map Prod.snd,
       Cache.mk c.libraries
        (if idx ≠ 0 then
          match c.mappings[idx]? with
          | some entry => entry :: c.mappings.eraseIdx idx
          | none => c.mappings
        else c.mappings)) = _
  rw [if_pos hidx, he]
  rfl

lemma mfl_miss (env : Env M) (c : Cache M) (lib : Nat) (l : Library)
    (hpos : position (fun p => p.1 == lib) c.mappings = none)
    (hl : c.libraries[lib]? = some l) :
    Cache.mapping_for_lib env c lib =
      match env.build l.name with
      | none => .ok (none, c)
      | some mapping =>
        .ok (some mapping, Cache.mk c.libraries ((lib, mapping) ::
          (if c.mappings.length == MAPPINGS_CACHE_SIZE then c.mappings.dropLast
           else c.mappings))) := by
  unfold Cache.mapping_for_lib
  rw [hpos, hl]
  rfl

lemma mfl_panic (env : Env M) (c : Cache M) (lib : Nat)
    (hpos : position (fun p => p.1 == lib) c.mappings = none)
    (hl : c.libraries[lib]? = none) :
    Cache.mapping_for_lib env c lib = .error () := by
  unfold Cache.mapping_for_lib
  rw [hpos, hl]

lemma resolve_of_avma_none (env : Env M) (c : Cache M) (addr : Nat)
    (h : c.avma_to_svma addr = none) : resolve env c addr = .ok ([], c) := by
  unfold resolve
  rw [h]

lemma resolve_of_avma_some (env : Env M) (c : Cache M) (addr lib svma : Nat)
    (h : c.avma_to_svma addr = some (lib, svma)) :
    resolve env c addr =
      match Cache.mapping_for_lib env c lib with
      | .error e => .error e
      | .ok (none, next) => .ok ([], next)
      | .ok (some m, next) => .ok (symbolsFor env m svma, next) := by
  unfold resolve
  rw [h]

lemma translateSpec_some (addr : Nat) :
    ∀ (libs : List Library) (n i s : Nat),
      translateSpec addr n libs = some (i, s) →
      n ≤ i ∧ ∃ l, libs[i - n]? = some l := by
  intro libs
  induction libs with
  | nil => intro n i s h; simp [translateSpec] at h
  | cons lib rest ih =>
    intro n i s h
    rw [translateSpec] at h
    split at h
    · obtain ⟨rfl, rfl⟩ := Prod.mk.injEq .. ▸ Option.some.inj h
      exact ⟨Nat.le_refl n, lib, by simp⟩
    · obtain ⟨hle, l, hl⟩ := ih (n + 1) i s h
      refine ⟨by omega, l, ?_⟩
      rw [show i - n = (i - (n + 1)) + 1 by omega]
      simpa using hl

lemma avma_some_get (c : Cache M) (addr lib svma : Nat)
    (h : c.avma_to_svma addr = some (lib, svma)) :
    ∃ l, c.libraries[lib]? = some l := by
  rw [avma_eq_translateSpec] at h
  obtain ⟨-, l, hl⟩ := translateSpec_some addr c.libraries 0 lib svma h
  exact ⟨l, by simpa using hl⟩

lemma translateSpec_none (addr : Nat) :
    ∀ (libs : List Library) (n : Nat),
      (∀ lib ∈ libs, libHasAddr addr lib = false) →
      translateSpec addr n libs = none := by
  intro libs
  induction libs with
  | nil => intro n _; rfl
  | cons lib rest ih =>
    intro n h
    rw [translateSpec, ← libHasAddr_eq_spec]
    have hlib := h lib (by simp)
    simp only [hlib, Bool.false_eq_true, if_false]
    exact ih (n + 1) fun l hl => h l (by simp [hl])

lemma avma_none_of_no_match (c : Cache M) (addr : Nat)
    (h : ∀ lib ∈ c.libraries, libHasAddr addr lib = false) :
    c.avma_to_svma addr = none := by
  rw [avma_eq_translateSpec]
  exact translateSpec_none addr c.libraries 0 h

lemma mapping_for_lib_ok (env : Env M) (c : Cache M) (lib : Nat)
    (h : ∃ l, c.libraries[lib]? = some l) :
    ∃ r, Cache.mapping_for_lib env c lib = .ok r := by
  obtain ⟨l, hl⟩ := h
  cases hpos : position (fun p => p.1 == lib) c.mappings with
  | some idx =>
    obtain ⟨e, he, -⟩ := position_spec hpos
    by_cases hidx : idx = 0
    · subst hidx
      exact ⟨_, mfl_hit_zero env c lib hpos⟩
    · exact ⟨_, mfl_hit_pos env c lib idx e hpos hidx he⟩
  | none =>
    rw [mfl_miss env c lib l hpos hl]
    cases env.build l.name with
    | none => exact ⟨_, rfl⟩
    | some m => exact ⟨_, rfl⟩

lemma mapping_for_lib_consistent (env : Env M) (c : Cache M) (lib : Nat)
    (l : Library) (hl : c.libraries[lib]? = some l) (hc : Consistent env c) :
    ∃ next, Cache.mapping_for_lib env c lib = .ok (env.build l.name, next) ∧
      Consistent env next ∧ next.libraries = c.libraries := by
  cases hpos : position (fun p => p.1 == lib) c.mappings with
  | some idx =>
    obtain ⟨e, he, hpe⟩ := position_spec hpos
    have helib : e.1 = lib := by simpa using hpe
    have hmem : e ∈ c.mappings := by
      obtain ⟨hlt, hget⟩ := List.getElem?_eq_some_iff.mp he
      exact hget ▸ List.getElem_mem hlt
    obtain ⟨l', hl', hb'⟩ := hc e hmem
    rw [helib, hl] at hl'
    obtain rfl := Option.some.inj hl'
    by_cases hidx : idx = 0
    · subst hidx
      have hhead : c.mappings.head? = some e := by
        rw [List.head?_eq_getElem?]
        exact he
      refine ⟨Cache.mk c.libraries c.mappings, ?_, hc, rfl⟩
      rw [mfl_hit_zero env c lib hpos, hhead, hb']
      rfl
    · refine ⟨Cache.mk c.libraries (e :: c.mappings.eraseIdx idx), ?_, ?_, rfl⟩
      · rw [mfl_hit_pos env c lib idx e hpos hidx he, hb']
      · intro q hq
        have hqmem : q ∈ c.mappings := by
          rcases List.mem_cons.mp hq with h | h
          · exact h ▸ hmem
          · exact (List.eraseIdx_sublist c.mappings idx).subset h
        exact hc q hqmem
  | none =>
    rw [mfl_miss env c lib l hpos hl]
    cases hb : env.build l.name with
    | none => exact ⟨c, rfl, hc, rfl⟩
    | some m =>
      refine ⟨_, rfl, ?_, rfl⟩
      intro q hq
      rcases List.mem_cons.mp hq with h | h
      · subst h
        exact ⟨l, hl, hb⟩
      · have hqmem : q ∈ c.mappings := by
          by_cases hcap : (c.mappings.length == MAPPINGS_CACHE_SIZE) = true
          · simp only [hcap, if_true] at h
            exact (List.dropLast_sublist c.mappings).subset h
          · simp only [hcap, if_false] at h
            exact h
        exact hc q hqmem

lemma avma_mk_eq (c : Cache M) (addr : Nat) :
    (Cache.mk c.libraries ([] : List (Nat × M))).avma_to_svma addr =
      c.avma_to_svma addr := rfl

lemma resolveOut_of_avma_none (env : Env M) (libs : List Library) (addr : Nat)
    (h : (Cache.mk libs ([] : List (Nat × M))).avma_to_svma addr = none) :
    resolveOut env libs addr = [] := by
  unfold resolveOut
  rw [h]

lemma resolveOut_of_avma_some (env : Env M) (libs : List Library)
    (addr lib svma : Nat) (l : Library)
    (h : (Cache.mk libs ([] : List (Nat × M))).avma_to_svma addr =
      some (lib, svma))
    (hl : libs[lib]? = some l) :
    resolveOut env libs addr =
      match env.build l.name with
      | none => []
      | some m => symbolsFor env m svma := by
  unfold resolveOut
  rw [h]
  show (match libs[lib]?.bind (fun l => env.build l.name) with
    | none => []
    | some m => symbolsFor env m svma) = _
  rw [hl, Option.some_bind]

lemma resolve_output (env : Env M) (c : Cache M) (addr : Nat)
    (hc : Consistent env c) :
    ∃ next, resolve env c addr = .ok (resolveOut env c.libraries addr, next) ∧
      Consistent env next ∧ next.libraries = c.libraries := by
  cases havma : c.avma_to_svma addr with
  | none =>
    rw [resolve_of_avma_none env c addr havma,
      resolveOut_of_avma_none env c.libraries addr (avma_mk_eq c addr ▸ havma)]
    exact ⟨c, rfl, hc, rfl⟩
  | some pair =>
    obtain ⟨lib, svma⟩ := pair
    obtain ⟨l, hl⟩ := avma_some_get c addr lib svma havma
    obtain ⟨next, hmfl, hcons, hlibs⟩ :=
      mapping_for_lib_consistent env c lib l hl hc
    rw [resolve_of_avma_some env c addr lib svma havma, hmfl,
      resolveOut_of_avma_some env c.libraries addr lib svma l
        (avma_mk_eq c addr ▸ havma) hl]
    cases hb : env.build l.name with
    | none => exact ⟨next, rfl, hcons, hlibs⟩
    | some m => exact ⟨next, rfl, hcons, hlibs⟩

/-- C1: address translation scans libraries in inventory order and returns
the first (lowest-index) library having some segment with
`bias + stated_address ≤ address < bias + stated_address + length`, paired
with `file_coordinate = address - bias`, and `none` when no library has a
matching segment; concretely, for one segment `{stated_address 0x1000,
length 0x2000}` with bias `0x5000`, address `0x6500` translates to file
coordinate `0x1500` and address `0x8500` translates to `none`. -/
theorem avma_to_svma_first_match :
    (∀ (M : Type) (c : Cache M) (addr : Nat),
        c.avma_to_svma addr = translateSpec addr 0 c.libraries) ∧
    (Cache.mk [Library.mk "demo" [LibrarySegment.mk 0x1000 0x2000] 0x5000]
        ([] : List (Nat × Unit))).avma_to_svma 0x6500 = some (0, 0x1500) ∧
    (Cache.mk [Library.mk "demo" [LibrarySegment.mk 0x1000 0x2000] 0x5000]
        ([] : List (Nat × Unit))).avma_to_svma 0x8500 = none := by
  refine ⟨fun M c addr => avma_eq_translateSpec c addr, by decide, by decide⟩

/-- C2: in `resolve`, the symbol-table fallback runs if and only if the
debug-info interpreter produced zero frames for the translated coordinate
(including when `find_frames` errored before yielding any frame); a
successful fallback invokes the callback exactly once, with address and
name only — the `Symbol.symtab` constructor carries no location; and when
at least one interpreter frame was delivered, no symbol-table symbol is
emitted. -/
theorem resolve_symtab_fallback :
    ∀ (M : Type) (env : Env M) (c : Cache M) (addr lib svma : Nat) (m : M)
      (next : Cache M),
      c.avma_to_svma addr = some (lib, svma) →
      Cache.mapping_for_lib env c lib = .ok (some m, next) →
      (framesOf env m svma = [] → ∀ n, env.searchSymtab m svma = some n →
        resolve env c addr = .ok ([Symbol.symtab svma n], next)) ∧
      (framesOf env m svma = [] → env.searchSymtab m svma = none →
        resolve env c addr = .ok ([], next)) ∧
      (framesOf env m svma ≠ [] →
        resolve env c addr =
          .ok ((framesOf env m svma).map
            (fun f => Symbol.frame svma f.location f.name), next) ∧
        ∀ a n, Symbol.symtab a n ∉
          (framesOf env m svma).map fun f => Symbol.frame svma f.location f.name) := by
  intro M env c addr lib svma m next havma hmfl
  have hres : resolve env c addr = .ok (symbolsFor env m svma, next) := by
    rw [resolve_of_avma_some env c addr lib svma havma, hmfl]
  refine ⟨?_, ?_, ?_⟩
  · intro hfr n hsym
    rw [hres]
    simp [symbolsFor, hfr, hsym]
  · intro hfr hsym
    rw [hres]
    simp [symbolsFor, hfr, hsym]
  · intro hfr
    constructor
    · rw [hres]
      have hne : ((framesOf env m svma).map
          fun f => Symbol.frame svma f.location f.name) ≠ [] := by
        simpa using hfr
      simp [symbolsFor, hne]
    · intro a n hmem
      obtain ⟨f, -, hf⟩ := List.mem_map.mp hmem
      exact Symbol.noConfusion hf

/-- Witness for `resolve_symtab_fallback`: the demo library's two inlined
frames are delivered and no symbol-table fallback occurs. -/
theorem resolve_symtab_fallback_witness :
    resolve demoEnv demoCache 0x6500 =
      .ok ((framesOf demoEnv 7 0x1500).map
        (fun f => Symbol.frame 0x1500 f.location f.name),
        Cache.mk [demoLib] [(0, 7)]) :=
  ((resolve_symtab_fallback Nat demoEnv demoCache 0x6500 0 0x1500 7
    (Cache.mk [demoLib] [(0, 7)]) (by decide) (by rfl)).2.2 (by decide)).1

/-- C3: for an address outside every segment of every library the callback
is invoked zero times; and `resolve` is total — it never takes the modelled
panic path, so every failure mode results only in fewer or zero callback
invocations and a normal return. -/
theorem resolve_total_and_silent :
    (∀ (M : Type) (env : Env M) (c : Cache M) (addr : Nat),
        (∀ lib ∈ c.libraries, libHasAddr addr lib = false) →
        resolve env c addr = .ok ([], c)) ∧
    (∀ (M : Type) (env : Env M) (c : Cache M) (addr : Nat),
        ∃ out next, resolve env c addr = .ok (out, next)) := by
  constructor
  · intro M env c addr h
    exact resolve_of_avma_none env c addr (avma_none_of_no_match c addr h)
  · intro M env c addr
    cases havma : c.avma_to_svma addr with
    | none => exact ⟨[], c, resolve_of_avma_none env c addr havma⟩
    | some pair =>
      obtain ⟨lib, svma⟩ := pair
      obtain ⟨r, hr⟩ :=
        mapping_for_lib_ok env c lib (avma_some_get c addr lib svma havma)
      obtain ⟨opt, next⟩ := r
      cases opt with
      | none =>
        exact ⟨[], next, by
          rw [resolve_of_avma_some env c addr lib svma havma, hr]⟩
      | some m =>
        exact ⟨symbolsFor env m svma, next, by
          rw [resolve_of_avma_some env c addr lib svma havma, hr]⟩

/-- Witness for `resolve_total_and_silent`: address 0x9999 lies outside the
demo library's only segment `[0x6000, 0x8000)`, so resolution is silent. -/
theorem resolve_total_and_silent_witness :
    resolve demoEnv demoCache 0x9999 = .ok ([], demoCache) :=
  resolve_total_and_silent.1 Nat demoEnv demoCache 0x9999 (by decide)

/-- C9: two successive `resolve` calls with the same address against an
unmodified inventory and environment produce identical callback sequences,
even though the first call may mutate the cache (building or promoting a
mapping) and the second call hits the cache. -/
theorem resolve_idempotent :
    ∀ (M : Type) (env : Env M) (c : Cache M) (addr : Nat)
      (out1 : List Symbol) (c1 : Cache M) (out2 : List Symbol) (c2 : Cache M),
      Consistent env c →
      resolve env c addr = .ok (out1, c1) →
      resolve env c1 addr = .ok (out2, c2) →
      out2 = out1 := by
  intro M env c addr out1 c1 out2 c2 hc h1 h2
  obtain ⟨n1, hr1, hcons1, hlibs1⟩ := resolve_output env c addr hc
  rw [h1] at hr1
  simp only [Except.ok.injEq, Prod.mk.injEq] at hr1
  obtain ⟨ho1, hc1⟩ := hr1
  subst hc1
  obtain ⟨n2, hr2, -, -⟩ := resolve_output env c1 addr hcons1
  rw [h2] at hr2
  simp only [Except.ok.injEq, Prod.mk.injEq] at hr2
  rw [hr2.1, ho1, hlibs1]

/-- Witness for `resolve_idempotent`: resolving 0x6500 twice from the demo
cache yields the demo callback sequence both times. -/
theorem resolve_idempotent_witness : demoSyms = demoSyms :=
  resolve_idempotent Nat demoEnv demoCache 0x6500
    demoSyms (Cache.mk [demoLib] [(0, 7)]) demoSyms (Cache.mk [demoLib] [(0, 7)])
    (by intro p hp; simp [demoCache] at hp) (by rfl) (by rfl)

/-- C6: `clear_symbol_cache` empties the mapping list and leaves the
library inventory unchanged; a `resolve` after the clear (same binaries, so
same environment) rebuilds the mapping from scratch and produces the same
callback sequence as the `resolve` before the clear. -/
theorem clear_symbol_cache_spec :
    (∀ (M : Type) (c : Cache M),
        (clear_symbol_cache c).mappings = [] ∧
        (clear_symbol_cache c).libraries = c.libraries) ∧
    (∀ (M : Type) (env : Env M) (c : Cache M) (addr : Nat)
        (out1 : List Symbol) (c1 : Cache M) (out2 : List Symbol) (c2 : Cache M),
      Consistent env c →
      resolve env c addr = .ok (out1, c1) →
      resolve env (clear_symbol_cache c) addr = .ok (out2, c2) →
      out2 = out1) := by
  constructor
  · intro M c
    exact ⟨rfl, rfl⟩
  · intro M env c addr out1 c1 out2 c2 hc h1 h2
    have hcc : Consistent env (clear_symbol_cache c) := by
      intro p hp
      simp [clear_symbol_cache] at hp
    obtain ⟨n1, hr1, -, -⟩ := resolve_output env c addr hc
    obtain ⟨n2, hr2, -, -⟩ := resolve_output env (clear_symbol_cache c) addr hcc
    rw [h1] at hr1
    rw [h2] at hr2
    simp only [Except.ok.injEq, Prod.mk.injEq] at hr1 hr2
    rw [hr1.1, hr2.1]
    rfl

/-- Witness for `clear_symbol_cache_spec`: the demo cache with a built
mapping, cleared and re-resolved, reproduces the demo callback sequence. -/
theorem clear_symbol_cache_spec_witness : demoSyms = demoSyms :=
  clear_symbol_cache_spec.2 Nat demoEnv demoCacheFilled 0x6500
    demoSyms (Cache.mk [demoLib] [(0, 7)]) demoSyms (Cache.mk [demoLib] [(0, 7)])
    (by
      intro p hp
      simp only [demoCacheFilled, List.mem_singleton] at hp
      subst hp
      exact ⟨demoLib, rfl, rfl⟩)
    (by rfl) (by rfl)

lemma mfl_ok_head (env : Env M) (c : Cache M) (lib : Nat) (m : M)
    (next : Cache M)
    (h : Cache.mapping_for_lib env c lib = .ok (some m, next)) :
    next.mappings.head? = some (lib, m) := by
  cases hpos : position (fun p => p.1 == lib) c.mappings with
  | some idx =>
    obtain ⟨e, he, hpe⟩ := position_spec hpos
    obtain ⟨e1, e2⟩ := e
    have helib : e1 = lib := by simpa using hpe
    by_cases hidx : idx = 0
    · subst hidx
      rw [mfl_hit_zero env c lib hpos] at h
      simp only [Except.ok.injEq, Prod.mk.injEq] at h
      obtain ⟨hv, hnext⟩ := h
      have hhead : c.mappings.head? = some (e1, e2) := by
        rw [List.head?_eq_getElem?]
        exact he
      rw [hhead] at hv
      simp only [Option.map_some'] at hv
      obtain rfl := Option.some.inj hv
      rw [← hnext]
      show c.mappings.head? = some (lib, e2)
      rw [hhead, helib]
    · rw [mfl_hit_pos env c lib idx (e1, e2) hpos hidx he] at h
      simp only [Except.ok.injEq, Prod.mk.injEq] at h
      obtain ⟨hv, hnext⟩ := h
      obtain rfl := Option.some.inj hv
      rw [← hnext]
      show ((e1, e2) :: c.mappings.eraseIdx idx).head? = some (lib, (e1, e2).2)
      simp [helib]
  | none =>
    cases hl : c.libraries[lib]? with
    | none =>
      rw [mfl_panic env c lib hpos hl] at h
      exact Except.noConfusion h
    | some l =>
      rw [mfl_miss env c lib l hpos hl] at h
      cases hb : env.build l.name with
      | none =>
        rw [hb] at h
        simp at h
      | some m' =>
        rw [hb] at h
        simp only [Except.ok.injEq, Prod.mk.injEq] at h
        obtain ⟨hv, hnext⟩ := h
        obtain rfl := Option.some.inj hv
        rw [← hnext]
        rfl

lemma mfl_ok_length (env : Env M) (c : Cache M) (lib : Nat) (m : M)
    (next : Cache M)
    (h : Cache.mapping_for_lib env c lib = .ok (some m, next))
    (hlen : c.mappings.length ≤ MAPPINGS_CACHE_SIZE) :
    next.mappings.length ≤ MAPPINGS_CACHE_SIZE := by
  cases hpos : position (fun p => p.1 == lib) c.mappings with
  | some idx =>
    obtain ⟨e, he, -⟩ := position_spec hpos
    have hidxlt : idx < c.mappings.length :=
      (List.getElem?_eq_some_iff.mp he).1
    by_cases hidx : idx = 0
    · subst hidx
      rw [mfl_hit_zero env c lib hpos] at h
      simp only [Except.ok.injEq, Prod.mk.injEq] at h
      rw [← h.2]
      exact hlen
    · rw [mfl_hit_pos env c lib idx e hpos hidx he] at h
      simp only [Except.ok.injEq, Prod.mk.injEq] at h
      rw [← h.2]
      show (e :: c.mappings.eraseIdx idx).length ≤ MAPPINGS_CACHE_SIZE
      rw [List.length_cons, List.length_eraseIdx]
      simp only [if_pos hidxlt]
      omega
  | none =>
    cases hl : c.libraries[lib]? with
    | none =>
      rw [mfl_panic env c lib hpos hl] at h
      exact Except.noConfusion h
    | some l =>
      rw [mfl_miss env c lib l hpos hl] at h
      cases hb : env.build l.name with
      | none =>
        rw [hb] at h
        simp at h
      | some m' =>
        rw [hb] at h
        simp only [Except.ok.injEq, Prod.mk.injEq] at h
        rw [← h.2]
        by_cases hcap : (c.mappings.length == MAPPINGS_CACHE_SIZE) = true
        · have hce : c.mappings.length = MAPPINGS_CACHE_SIZE := by
            simpa using hcap
          show ((lib, m') ::
            (if c.mappings.length == MAPPINGS_CACHE_SIZE then
              c.mappings.dropLast else c.mappings)).length ≤ MAPPINGS_CACHE_SIZE
          rw [List.length_cons, if_pos hcap, List.length_dropLast]
          simp only [MAPPINGS_CACHE_SIZE] at hce ⊢
          omega
        · have hne : c.mappings.length ≠ MAPPINGS_CACHE_SIZE := by
            simpa using hcap
          show ((lib, m') ::
            (if c.mappings.length == MAPPINGS_CACHE_SIZE then
              c.mappings.dropLast else c.mappings)).length ≤ MAPPINGS_CACHE_SIZE
          rw [List.length_cons, if_neg (by simpa using hcap)]
          simp only [MAPPINGS_CACHE_SIZE] at hne hlen ⊢
          omega

/-- C4: after any successful `mapping_for_lib` the entry for the requested
library occupies position 0 of the mapping list; a hit at position `p ≠ 0`
is promoted by removing and reinserting at position 0, reusing the stored
mapping with no construction; a successful miss only prepends — the
surviving entries form a sublist of the previous list, so promotion is the
only reordering; and the call sequence i, j, i from an empty cache (i ≠ j,
capacity ≥ 2) leaves i at position 0 having constructed i's mapping exactly
once: the first call builds, the second builds only j, the third is a
cache hit. -/
theorem mapping_cache_promotion :
    (∀ (M : Type) (env : Env M) (c : Cache M) (lib : Nat) (m : M)
        (next : Cache M),
      Cache.mapping_for_lib env c lib = .ok (some m, next) →
      next.mappings.head? = some (lib, m)) ∧
    (∀ (M : Type) (env : Env M) (c : Cache M) (lib idx : Nat) (e : Nat × M),
      position (fun p => p.1 == lib) c.mappings = some idx → idx ≠ 0 →
      c.mappings[idx]? = some e →
      Cache.mapping_for_lib env c lib =
        .ok (some e.2, Cache.mk c.libraries (e :: c.mappings.eraseIdx idx)) ∧
      c.builds_mapping lib = false) ∧
    (∀ (M : Type) (env : Env M) (c : Cache M) (lib : Nat) (l : Library)
        (m : M),
      position (fun p => p.1 == lib) c.mappings = none →
      c.libraries[lib]? = some l → env.build l.name = some m →
      ∃ tail, Cache.mapping_for_lib env c lib =
        .ok (some m, Cache.mk c.libraries ((lib, m) :: tail)) ∧
        tail.Sublist c.mappings) ∧
    (∀ (M : Type) (env : Env M) (libs : List Library) (i j : Nat)
        (li lj : Library) (mi mj : M),
      i ≠ j →
      libs[i]? = some li → libs[j]? = some lj →
      env.build li.name = some mi → env.build lj.name = some mj →
      (touch env (Cache.mk libs []) i).mappings = [(i, mi)] ∧
      (touch env (touch env (Cache.mk libs []) i) j).mappings
        = [(j, mj), (i, mi)] ∧
      (touch env (touch env (touch env (Cache.mk libs []) i) j) i).mappings
        = [(i, mi), (j, mj)] ∧
      (Cache.mk libs ([] : List (Nat × M))).builds_mapping i = true ∧
      (touch env (Cache.mk libs []) i).builds_mapping j = true ∧
      (touch env (touch env (Cache.mk libs []) i) j).builds_mapping i
        = false) := by
  refine ⟨?_, ?_, ?_, ?_⟩
  · intro M env c lib m next h
    exact mfl_ok_head env c lib m next h
  · intro M env c lib idx e hpos hidx he
    refine ⟨mfl_hit_pos env c lib idx e hpos hidx he, ?_⟩
    simp [Cache.builds_mapping, hpos]
  · intro M env c lib l m hpos hl hb
    refine ⟨if c.mappings.length == MAPPINGS_CACHE_SIZE then
      c.mappings.dropLast else c.mappings, ?_, ?_⟩
    · rw [mfl_miss env c lib l hpos hl, hb]
    · by_cases hcap : (c.mappings.length == MAPPINGS_CACHE_SIZE) = true
      · simp only [hcap, if_true]
        exact List.dropLast_sublist c.mappings
      · simp only [hcap, if_false]
        exact List.Sublist.refl c.mappings
  · intro M env libs i j li lj mi mj hij hli hlj hbi hbj
    have hji : ¬(j = i) := fun h => hij h.symm
    have h1 : Cache.mapping_for_lib env (Cache.mk libs ([] : List (Nat × M))) i
        = .ok (some mi, Cache.mk libs [(i, mi)]) := by
      rw [mfl_miss env (Cache.mk libs []) i li rfl hli, hbi]
      rfl
    have ht1 : touch env (Cache.mk libs ([] : List (Nat × M))) i
        = Cache.mk libs [(i, mi)] := by
      unfold touch
      rw [h1]
    have hpos1 : position (fun p => p.1 == j) [(i, mi)] = none := by
      simp [position, hij]
    have h2 : Cache.mapping_for_lib env (Cache.mk libs [(i, mi)]) j
        = .ok (some mj, Cache.mk libs [(j, mj), (i, mi)]) := by
      rw [mfl_miss env (Cache.mk libs [(i, mi)]) j lj hpos1 hlj, hbj]
      rfl
    have ht2 : touch env (Cache.mk libs [(i, mi)]) j
        = Cache.mk libs [(j, mj), (i, mi)] := by
      unfold touch
      rw [h2]
    have hpos2 : position (fun p => p.1 == i) [(j, mj), (i, mi)] = some 1 := by
      simp [position, hji]
    have h3 : Cache.mapping_for_lib env (Cache.mk libs [(j, mj), (i, mi)]) i
        = .ok (some mi, Cache.mk libs [(i, mi), (j, mj)]) := by
      rw [mfl_hit_pos env (Cache.mk libs [(j, mj), (i, mi)]) i 1 (i, mi) hpos2
        (by decide) rfl]
      rfl
    have ht3 : touch env (Cache.mk libs [(j, mj), (i, mi)]) i
        = Cache.mk libs [(i, mi), (j, mj)] := by
      unfold touch
      rw [h3]
    refine ⟨by rw [ht1], by rw [ht1, ht2], by rw [ht1, ht2, ht3], rfl, ?_, ?_⟩
    · rw [ht1]
      simp [Cache.builds_mapping, hpos1]
    · rw [ht1, ht2]
      simp [Cache.builds_mapping, hpos2]

/-- Witness for `mapping_cache_promotion`: touching libraries 0, 1, 0 of
the five-library inventory leaves 0 at position 0 with one build; the
third call is a cache hit. -/
theorem mapping_cache_promotion_witness :
    (touch countEnv (touch countEnv (touch countEnv
        (Cache.mk fiveLibs []) 0) 1) 0).mappings = [(0, 0), (1, 0)] ∧
    (touch countEnv (Cache.mk fiveLibs []) 0).builds_mapping 1 = true ∧
    (touch countEnv (touch countEnv
        (Cache.mk fiveLibs []) 0) 1).builds_mapping 0 = false := by
  obtain ⟨-, -, h3, -, h5, h6⟩ := mapping_cache_promotion.2.2.2 Nat countEnv
    fiveLibs 0 1 blankLib blankLib 0 0 (by decide) rfl rfl rfl rfl
  exact ⟨h3, h5, h6⟩

/-- C5: a successful miss at capacity evicts exactly the tail
(least-recently-used) entry before inserting the new entry at position 0;
the mapping list never exceeds the fixed capacity of 4; and touching
capacity + 1 distinct never-before-seen library indices once each leaves
the first-inserted index absent and the cache length equal to the
capacity. -/
theorem mapping_cache_eviction :
    (∀ (M : Type) (env : Env M) (c : Cache M) (lib : Nat) (m : M)
        (next : Cache M),
      Cache.mapping_for_lib env c lib = .ok (some m, next) →
      c.mappings.length ≤ MAPPINGS_CACHE_SIZE →
      next.mappings.length ≤ MAPPINGS_CACHE_SIZE) ∧
    (∀ (M : Type) (env : Env M) (c : Cache M) (lib : Nat) (l : Library)
        (m : M),
      position (fun p => p.1 == lib) c.mappings = none →
      c.libraries[lib]? = some l → env.build l.name = some m →
      c.mappings.length = MAPPINGS_CACHE_SIZE →
      Cache.mapping_for_lib env c lib =
        .ok (some m, Cache.mk c.libraries ((lib, m) :: c.mappings.dropLast))) ∧
    ((touchList countEnv (Cache.mk fiveLibs []) [0, 1, 2, 3, 4]).mappings
        = [(4, 0), (3, 0), (2, 0), (1, 0)] ∧
      (touchList countEnv (Cache.mk fiveLibs []) [0, 1, 2, 3, 4]).mappings.length
        = MAPPINGS_CACHE_SIZE ∧
      position (fun p => p.1 == 0)
        (touchList countEnv (Cache.mk fiveLibs []) [0, 1, 2, 3, 4]).mappings
        = none) := by
  refine ⟨?_, ?_, by decide, by decide, by decide⟩
  · intro M env c lib m next h hlen
    exact mfl_ok_length env c lib m next h hlen
  · intro M env c lib l m hpos hl hb hcap
    rw [mfl_miss env c lib l hpos hl, hb,
      if_pos (by simpa using hcap : (c.mappings.length == MAPPINGS_CACHE_SIZE) = true)]

/-- Witness for `mapping_cache_eviction`: evicting from a full cache built
over the five-library inventory drops exactly the tail entry. -/
theorem mapping_cache_eviction_witness :
    Cache.mapping_for_lib countEnv
      (Cache.mk fiveLibs [(1, 0), (2, 0), (3, 0), (4, 0)]) 0 =
      .ok (some 0, Cache.mk fiveLibs [(0, 0), (1, 0), (2, 0), (3, 0)]) := by
  have h := mapping_cache_eviction.2.1 Nat countEnv
    (Cache.mk fiveLibs [(1, 0), (2, 0), (3, 0), (4, 0)]) 0 blankLib 0
    (by decide) rfl rfl (by decide)
  simpa using h

/-- C10: a cache miss whose `Mapping::new` fails returns `none` with the
mapping list completely unchanged — no eviction, no insertion, no
reordering; the failed operation is atomic with respect to cache state. -/
theorem mapping_failure_atomic :
    ∀ (M : Type) (env : Env M) (c : Cache M) (lib : Nat) (l : Library),
      position (fun p => p.1 == lib) c.mappings = none →
      c.libraries[lib]? = some l →
      env.build l.name = none →
      Cache.mapping_for_lib env c lib = .ok (none, c) := by
  intro M env c lib l hpos hl hb
  rw [mfl_miss env c lib l hpos hl, hb]

/-- Witness for `mapping_failure_atomic`: a failing build against a cache
already holding the entry `(1, 5)` leaves that entry, and the whole cache,
untouched. -/
theorem mapping_failure_atomic_witness :
    Cache.mapping_for_lib failEnv (Cache.mk [blankLib, blankLib] [(1, 5)]) 0 =
      .ok (none, Cache.mk [blankLib, blankLib] [(1, 5)]) :=
  mapping_failure_atomic Nat failEnv (Cache.mk [blankLib, blankLib] [(1, 5)]) 0
    blankLib (by decide) (by decide) rfl

lemma collectSegs_ft_lt :
    ∀ (cmds : List (Except Unit (Option MachSegment)))
      (segs0 : List LibrarySegment) (ft0 : Nat) (tfz0 : Bool)
      (segs : List LibrarySegment) (ft : Nat) (tfz : Bool),
      collectSegs cmds segs0 ft0 tfz0 = some (segs, ft, tfz) →
      (ft0 < segs0.length ∨ (segs0 = [] ∧ ft0 = 0)) →
      (ft < segs.length ∨ (segs = [] ∧ ft = 0)) := by
  intro cmds
  induction cmds with
  | nil =>
    intro segs0 ft0 tfz0 segs ft tfz h hinv
    simp only [collectSegs, Option.some.injEq, Prod.mk.injEq] at h
    obtain ⟨rfl, rfl, -⟩ := h
    exact hinv
  | cons cmd rest ih =>
    intro segs0 ft0 tfz0 segs ft tfz h hinv
    match cmd with
    | .error e => simp [collectSegs] at h
    | .ok none =>
      simp only [collectSegs] at h
      exact ih segs0 ft0 tfz0 segs ft tfz h hinv
    | .ok (some s) =>
      simp only [collectSegs] at h
      refine ih _ _ _ segs ft tfz h (Or.inl ?_)
      by_cases hname : (s.segname == "__TEXT") = true
      · simp only [hname, if_true]
        simp
      · simp only [hname, if_false]
        rcases hinv with hlt | ⟨rfl, rfl⟩
        · simp
          omega
        · simp

/-- C7: on the image `imgTwoText`, which carries two `__TEXT` segments with
stated addresses 0x2000 then 0x1000 and no zero-file-offset `__TEXT`
segment, `native_library` subtracts the LAST `__TEXT` segment's stated
address (0x1000) from every stated address and adds it to the slide —
`first_text` is reassigned at every `__TEXT` segment — whereas the claim
and the source's own comments say the FIRST `__TEXT` segment's stated
address (0x2000) is the adjustment. -/
theorem macho_bias_uses_last_text :
    nativeLibrary imgTwoText =
      .ok (some (Library.mk "libfoo"
        [LibrarySegment.mk 0x1000 0x100, LibrarySegment.mk 0 0x100]
        0x11000)) ∧
    0x11000 = imgTwoText.slide + 0x1000 ∧
    0x11000 ≠ imgTwoText.slide + 0x2000 := by
  refine ⟨rfl, by decide, by decide⟩

/-- C8 (counterexample): an image whose name, header, and load commands are
all fine but which contains no segment command at all sends
`native_library` into the `segments[first_text]` indexing with an empty
segment list: an index-out-of-bounds panic (modelled `.error ()`), which
aborts the whole inventory scan instead of skipping the image. -/
theorem macho_empty_segments_panic : nativeLibrary imgNoSegs = .error () :=
  rfl

/-- C8 (amended): per-image enumeration failures through the explicit error
paths — null image name, bad or unreadable header, load-command parse
failure — skip only that image (`.ok none`), and these paths are total; but
the enumeration panics (modelled `.error ()`) exactly when the name and
header are fine and the load commands parse to an empty segment list
(without a zero-file-offset `__TEXT` segment, which an empty list cannot
contain). -/
theorem macho_enumeration_errors :
    (∀ img : MachImage, img.imageName = none → nativeLibrary img = .ok none) ∧
    (∀ img : MachImage, img.headerOk = false → nativeLibrary img = .ok none) ∧
    (∀ img : MachImage, collectSegs img.cmds [] 0 false = none →
      nativeLibrary img = .ok none) ∧
    (∀ img : MachImage, nativeLibrary img = .error () ↔
      ((∃ nm, img.imageName = some nm) ∧ img.headerOk = true ∧
        collectSegs img.cmds [] 0 false = some ([], 0, false))) := by
  refine ⟨?_, ?_, ?_, ?_⟩
  · intro img h
    unfold nativeLibrary
    rw [h]
  · intro img h
    unfold nativeLibrary
    cases hnm : img.imageName with
    | none => rfl
    | some nm => rw [h]; rfl
  · intro img h
    unfold nativeLibrary
    cases hnm : img.imageName with
    | none => rfl
    | some nm =>
      cases hh : img.headerOk with
      | false => rfl
      | true => simp [h]
  · intro img
    constructor
    · intro h
      unfold nativeLibrary at h
      cases hnm : img.imageName with
      | none => rw [hnm] at h; exact Except.noConfusion h
      | some nm =>
        rw [hnm] at h
        cases hh : img.headerOk with
        | false => rw [hh] at h; simp at h
        | true =>
          rw [hh] at h
          simp only [if_true] at h
          cases hcol : collectSegs img.cmds [] 0 false with
          | none => rw [hcol] at h; exact Except.noConfusion h
          | some trip =>
            obtain ⟨segs, ft, tfz⟩ := trip
            cases tfz with
            | true =>
              rw [hcol] at h
              simp at h
            | false =>
              rw [hcol] at h
              simp only [Bool.not_false, if_true] at h
              cases hget : segs[ft]? with
              | some fseg =>
                rw [hget] at h
                simp at h
              | none =>
                have hle : segs.length ≤ ft := by
                  by_contra hlt
                  push_neg at hlt
                  rw [List.getElem?_eq_getElem hlt] at hget
                  exact Option.noConfusion hget
                have hinv := collectSegs_ft_lt img.cmds [] 0 false segs ft false
                  hcol (Or.inr ⟨rfl, rfl⟩)
                rcases hinv with hlt | ⟨hsegs, hft⟩
                · omega
                · subst hsegs
                  subst hft
                  exact ⟨⟨nm, rfl⟩, rfl, rfl⟩
    · rintro ⟨⟨nm, hnm⟩, hh, hcol⟩
      unfold nativeLibrary
      rw [hnm, hh]
      simp [hcol]

/-- Witness for `macho_enumeration_errors`: a null image name skips the
image, and the empty-segment image is exactly a panic input. -/
theorem macho_enumeration_errors_witness :
    nativeLibrary imgNoName = .ok none ∧ nativeLibrary imgNoSegs = .error () :=
  ⟨macho_enumeration_errors.1 imgNoName rfl,
   (macho_enumeration_errors.2.2.2 imgNoSegs).mpr ⟨⟨"libbar", rfl⟩, rfl, rfl⟩⟩

end BT
